import Mathlib

/-!
Verification of the Streaming Conversation Orchestrator of src/app.py.

The definitions below are a shallow embedding of the Python source:
chunks of the backend stream carry a thinking payload and a content
payload (an absent field is the empty string, matching
chunk.get("message", {}).get(..., "")), the two stream-consuming loops
of on_message become structural recursions over a chunk list, and the
wall clock is modelled by the two readings the code performs (start at
line 191, and the reading at the phase boundary in line 205).
-/

namespace App

/-- One token chunk of the backend stream, as read by on_message:
the thinking payload and the content payload, empty when absent. -/
structure Chunk where
  thinking : String
  content : String
deriving DecidableEq

/-- One emission to the UI: a token streamed to the Thinking step
(reasoning channel) or to the final-answer message (answer channel). -/
inductive StreamEvent where
  | thinkEmit : String → StreamEvent
  | contentEmit : String → StreamEvent
deriving DecidableEq

/-- A role-tagged history message, as stored in chat_history. -/
structure Msg where
  role : String
  content : String
deriving DecidableEq

/-- The per-session settings dict: selected model and the Think switch. -/
structure Settings where
  model : String
  think : Bool
deriving DecidableEq

/-- One uploaded file, as consumed by read_documents: its path, its
display name, and the text the external extractor yields for it (pdf
page texts concatenated, docx paragraphs joined by newlines, or the
plain file contents). Extraction itself is an external collaborator. -/
structure Doc where
  path : String
  name : String
  text : String
deriving DecidableEq

/-- One step of a persisted transcript, as consumed by on_chat_resume. -/
structure Step where
  type : String
  output : String
deriving DecidableEq

/-- The global model list of app.py line 30. -/
def models : List String := ["qwen3:0.6b", "qwen2.5:0.5b"]

/-- Line 166: the effective Think flag, forced off when the Think
switch is on and the selected model is models[1]. -/
def resolveThink (model : String) (think : Bool) : Bool :=
  if think && model == models.getD 1 "" then false else think

/-- Which models of the enumerated list support reasoning chunks: the
settings widget labels the Think switch as being for qwen3 models, so
the qwen2.5 entry lacks reasoning support. -/
def supportsReasoning (m : String) : Bool := m == "qwen3:0.6b"

/-- Python str.endswith on the character sequences of the strings. -/
def pathEndsWith (p suffix : String) : Bool :=
  suffix.data.isSuffixOf p.data

/-- Lines 57-75: read_documents walks the uploaded files and, for each
recognized extension, appends a header with the file name followed by
the extracted text; unrecognized extensions contribute nothing. -/
def read_documents (docs : List Doc) : String :=
  docs.foldl
    (fun acc d =>
      if pathEndsWith d.path "pdf" then
        acc ++ "\n\nFile: " ++ d.name ++ "\n" ++ d.text
      else if pathEndsWith d.path "docx" then
        acc ++ "\n\nFile: " ++ d.name ++ "\n" ++ d.text
      else if pathEndsWith d.path "txt" then
        acc ++ "\n\nFile: " ++ d.name ++ "\n" ++ d.text
      else acc)
    ""

/-- Line 175: the f-string wrapping the extracted document text. -/
def uploadMessage (data : String) : String :=
  "The user has uploaded the following files " ++ data ++
    ", assist them in their queries if related to the uploaded files"

/-- Lines 169-177: when the attachment list is nonempty, append one
system message holding the extracted document text; otherwise leave
the history untouched. -/
def foldDocs (history : List Msg) (docs : List Doc) : List Msg :=
  if docs.isEmpty then history
  else history ++ [⟨"system", uploadMessage (read_documents docs)⟩]

/-- Lines 195-208: the thinking-scan loop. State is the boolean
thinking flag (initially false). A chunk with a nonempty thinking
payload is emitted to the reasoning channel and sets the flag; a chunk
with an empty thinking payload breaks out of the loop when the flag is
set (computing the thought duration from the two clock readings, and
leaving the not-yet-consumed rest of the stream behind) and is
silently dropped otherwise. Returns the reasoning-channel events, the
duration when the break fired, and the unconsumed rest of the stream. -/
def scanAux (start now : Int) (thinking : Bool) :
    List Chunk → List StreamEvent × Option Int × List Chunk
  | [] => ([], none, [])
  | c :: rest =>
    if c.thinking ≠ "" then
      (StreamEvent.thinkEmit c.thinking :: (scanAux start now true rest).1,
        (scanAux start now true rest).2)
    else if thinking then
      ([], some (now - start), rest)
    else
      scanAux start now thinking rest

/-- Lines 211-215: the final-answer loop. Every chunk with a nonempty
content payload is appended to the accumulated answer and emitted to
the answer channel. Returns the answer-channel events and the
accumulated answer text. -/
def answerLoop : List Chunk → List StreamEvent × String
  | [] => ([], "")
  | c :: rest =>
    if c.content ≠ "" then
      (StreamEvent.contentEmit c.content :: (answerLoop rest).1,
        c.content ++ (answerLoop rest).2)
    else answerLoop rest

/-- Lines 189-215: consuming the chunk stream for one turn. When the
effective Think flag is on, the thinking scan runs first and the
answer loop continues on whatever part of the stream the scan left
unconsumed; otherwise only the answer loop runs. Returns the ordered
emission list, the accumulated answer, and the thought duration. -/
def consume (enabled : Bool) (stream : List Chunk) (start now : Int) :
    List StreamEvent × String × Option Int :=
  if enabled then
    ((scanAux start now false stream).1 ++
       (answerLoop (scanAux start now false stream).2.2).1,
      (answerLoop (scanAux start now false stream).2.2).2,
      (scanAux start now false stream).2.1)
  else
    ((answerLoop stream).1, (answerLoop stream).2, none)

/-- Lines 141-149: replaying a persisted transcript into a fresh
history, one append per user or assistant step, other steps skipped. -/
def on_chat_resume (steps : List Step) : List Msg :=
  steps.foldl
    (fun h s =>
      if s.type = "user_message" then h ++ [⟨"user", s.output⟩]
      else if s.type = "assistant_message" then h ++ [⟨"assistant", s.output⟩]
      else h)
    []

/-- Spec-side mapper for the resume contract: a user step becomes a
user message, an assistant step an assistant message, anything else
nothing. Used to state Claim 6 in the words of the spec. -/
def stepToMsg (s : Step) : Option Msg :=
  if s.type = "user_message" then some ⟨"user", s.output⟩
  else if s.type = "assistant_message" then some ⟨"assistant", s.output⟩
  else none

/-- Spec-side: the concatenation of every content payload of a chunk
stream, used to state the amended Claim 3. -/
def contentsConcat : List Chunk → String
  | [] => ""
  | c :: rest => c.content ++ contentsConcat rest

/-- The observable outcome of one on_message turn. -/
structure TurnResult where
  settings : Settings
  history : List Msg
  events : List StreamEvent
  answer : String
  duration : Option Int
  backendThink : Bool
  completed : Bool
deriving DecidableEq

/-- The stream-consumption part of a turn, with the failure mode of
claim C9 made explicit: when fails is true, pulling the chunk after
the listed ones raises inside whichever loop is reading the stream at
that point, so the events and answer accumulated so far survive but
the turn aborts (completed = false) before the final history append. -/
def turnStream (think : Bool) (chunks : List Chunk) (fails : Bool)
    (start now : Int) : List StreamEvent × String × Option Int × Bool :=
  if fails then
    if think then
      if (scanAux start now false chunks).2.1.isSome then
        ((scanAux start now false chunks).1 ++
           (answerLoop (scanAux start now false chunks).2.2).1,
          (answerLoop (scanAux start now false chunks).2.2).2,
          (scanAux start now false chunks).2.1, false)
      else
        ((scanAux start now false chunks).1, "", none, false)
    else
      ((answerLoop chunks).1, (answerLoop chunks).2, none, false)
  else
    ((consume think chunks start now).1,
      (consume think chunks start now).2.1,
      (consume think chunks start now).2.2, true)

/-- Lines 160-219: one on_message turn. Resolves the effective Think
flag (writing it back into the stored settings, as the in-place dict
assignment of line 166 does), folds uploaded documents into a system
message, appends the user message, hands the history and flag to the
backend, consumes the resulting stream, and appends the assistant
message when the stream iteration ran to completion without raising. -/
def runTurn (st : Settings) (history : List Msg) (docs : List Doc)
    (userText : String) (chunks : List Chunk) (fails : Bool)
    (start now : Int) : TurnResult :=
  let think := resolveThink st.model st.think
  let h2 := foldDocs history docs ++ [⟨"user", userText⟩]
  let o := turnStream think chunks fails start now
  ⟨⟨st.model, think⟩,
   if o.2.2.2 then h2 ++ [⟨"assistant", o.2.1⟩] else h2,
   o.1, o.2.1, o.2.2.1, think, o.2.2.2⟩

theorem runTurn_backendThink (st : Settings) (history : List Msg) (docs : List Doc)
    (u : String) (chunks : List Chunk) (fails : Bool) (start now : Int) :
    (runTurn st history docs u chunks fails start now).backendThink =
      resolveThink st.model st.think := rfl

theorem runTurn_settings (st : Settings) (history : List Msg) (docs : List Doc)
    (u : String) (chunks : List Chunk) (fails : Bool) (start now : Int) :
    (runTurn st history docs u chunks fails start now).settings =
      ⟨st.model, resolveThink st.model st.think⟩ := rfl

theorem runTurn_answer (st : Settings) (history : List Msg) (docs : List Doc)
    (u : String) (chunks : List Chunk) (fails : Bool) (start now : Int) :
    (runTurn st history docs u chunks fails start now).answer =
      (turnStream (resolveThink st.model st.think) chunks fails start now).2.1 := rfl

theorem runTurn_history (st : Settings) (history : List Msg) (docs : List Doc)
    (u : String) (chunks : List Chunk) (fails : Bool) (start now : Int) :
    (runTurn st history docs u chunks fails start now).history =
      if (turnStream (resolveThink st.model st.think) chunks fails start now).2.2.2 then
        foldDocs history docs ++ [⟨"user", u⟩] ++
          [⟨"assistant",
            (turnStream (resolveThink st.model st.think) chunks fails start now).2.1⟩]
      else foldDocs history docs ++ [⟨"user", u⟩] := rfl

theorem turnStream_completed (think : Bool) (chunks : List Chunk) (fails : Bool)
    (start now : Int) :
    (turnStream think chunks fails start now).2.2.2 = !fails := by
  cases fails
  · rfl
  · cases think
    · rfl
    · cases h : (scanAux start now false chunks).2.1.isSome <;>
        simp [turnStream, h]

theorem scanAux_events_think (start now : Int) (l : List Chunk) :
    ∀ b, ∀ e ∈ (scanAux start now b l).1, ∃ t, e = StreamEvent.thinkEmit t := by
  induction l with
  | nil =>
    intro b e he
    simp [scanAux] at he
  | cons c rest ih =>
    intro b e he
    simp only [scanAux] at he
    split at he
    · rcases List.mem_cons.mp he with h | h
      · exact ⟨c.thinking, h⟩
      · exact ih true e h
    · split at he
      · simp at he
      · exact ih b e he

theorem answerLoop_events (l : List Chunk) :
    ∀ e ∈ (answerLoop l).1, ∃ t, e = StreamEvent.contentEmit t := by
  induction l with
  | nil =>
    intro e he
    simp [answerLoop] at he
  | cons c rest ih =>
    intro e he
    simp only [answerLoop] at he
    split at he
    · rcases List.mem_cons.mp he with h | h
      · exact ⟨c.content, h⟩
      · exact ih e h
    · exact ih e he

theorem answerLoop_answer (l : List Chunk) :
    (answerLoop l).2 = contentsConcat l := by
  induction l with
  | nil => rfl
  | cons c rest ih =>
    simp only [answerLoop, contentsConcat]
    split
    · simp [ih]
    · rename_i hc
      simp only [ne_eq, Decidable.not_not] at hc
      rw [ih, hc]
      exact (String.empty_append _).symm

theorem scanAux_some_of_true (start now : Int) (l : List Chunk)
    (h : ∃ c ∈ l, c.thinking = "") :
    (scanAux start now true l).2.1 = some (now - start) := by
  induction l with
  | nil => simp at h
  | cons c rest ih =>
    by_cases hc : c.thinking = ""
    · simp [scanAux, hc]
    · have hrest : ∃ x ∈ rest, x.thinking = "" := by
        rcases h with ⟨x, hx, hx2⟩
        rcases List.mem_cons.mp hx with rfl | hmem
        · exact absurd hx2 hc
        · exact ⟨x, hmem, hx2⟩
      simp [scanAux, hc, ih hrest]

theorem scanAux_some_of_shape (start now : Int) (l1 : List Chunk) (r : Chunk)
    (tail : List Chunk) (hr : r.thinking ≠ "")
    (hc : ∃ c ∈ tail, c.thinking = "") :
    ∀ b, (scanAux start now b (l1 ++ r :: tail)).2.1 = some (now - start) := by
  induction l1 with
  | nil =>
    intro b
    simp [scanAux, hr, scanAux_some_of_true start now tail hc]
  | cons d l1t ih =>
    intro b
    by_cases hd : d.thinking = ""
    · cases b with
      | true => simp [scanAux, hd]
      | false => simpa [scanAux, hd] using ih false
    · simp [scanAux, hd, ih true]

/-- Claim C1: evaluation of the stream consumption of on_message at the
stream [reasoning t1, reasoning t2, content a, content b] with reasoning
enabled. The thinking scan emits t1 and t2, but the break on the boundary
chunk discards the content payload a of that already-pulled chunk: the
answer channel receives only b and the accumulated answer is b, not ab
as the claim states. -/
theorem claim1_boundary_chunk_dropped :
    consume true [⟨"t1", ""⟩, ⟨"t2", ""⟩, ⟨"", "a"⟩, ⟨"", "b"⟩] 0 0 =
      ([StreamEvent.thinkEmit "t1", StreamEvent.thinkEmit "t2",
        StreamEvent.contentEmit "b"], "b", some 0) ∧
    (consume true [⟨"t1", ""⟩, ⟨"t2", ""⟩, ⟨"", "a"⟩, ⟨"", "b"⟩] 0 0).2.1 ≠ "ab" := by
  decide

/-- Claim C2: evaluation of the stream consumption of on_message at a
stream with no reasoning chunk, with reasoning enabled. The thinking
scan never sets its thinking flag, so its break never fires: it silently
consumes the whole stream, nothing is emitted on either channel, and the
accumulated answer is empty instead of the claimed ab. -/
theorem claim2_idle_content_swallowed :
    consume true [⟨"", "a"⟩, ⟨"", "b"⟩] 0 0 = ([], "", none) ∧
    (consume true [⟨"", "a"⟩, ⟨"", "b"⟩] 0 0).2.1 ≠ "ab" := by
  decide

/-- Claim C3, counterexample: with reasoning disabled, a chunk tagged
with reasoning text t contributes nothing to the accumulated answer
(the answer loop reads only the content payload), refuting the clause
of the claim that such a chunk contributes its text to the answer. -/
theorem claim3_counterexample :
    (consume false [⟨"t", ""⟩] 0 0).2.1 = "" ∧
    (consume false [⟨"t", ""⟩] 0 0).2.1 ≠ "t" := by
  decide

/-- Claim C3 as amended: with reasoning disabled no thinking scan runs,
the reasoning channel receives zero emissions (every emission is an
answer-channel one), no duration is produced, and the accumulated
answer is the concatenation of the content payloads of all chunks;
reasoning-tagged text is ignored rather than folded into the answer. -/
theorem claim3_reasoning_disabled (stream : List Chunk) (start now : Int) :
    (∀ e ∈ (consume false stream start now).1, ∃ t, e = StreamEvent.contentEmit t) ∧
    (consume false stream start now).2.1 = contentsConcat stream ∧
    (consume false stream start now).2.2 = none := by
  refine ⟨?_, ?_, ?_⟩
  · simpa [consume] using answerLoop_events stream
  · simp [consume, answerLoop_answer]
  · simp [consume]

/-- Claim C4: with reasoning enabled, on a stream holding a reasoning
chunk that is later followed by a content chunk, and with the boundary
clock reading no earlier than the start reading, the thought duration is
produced and non-negative, and the emission sequence of the turn splits
into reasoning-channel emissions followed by answer-channel emissions,
so every reasoning emission strictly precedes every answer emission. -/
theorem claim4_duration_and_ordering (stream : List Chunk) (start now : Int)
    (hclock : start ≤ now)
    (hshape : ∃ l1 r l2 c l3, stream = l1 ++ r :: (l2 ++ c :: l3) ∧
      r.thinking ≠ "" ∧ c.thinking = "" ∧ c.content ≠ "") :
    (∃ d, (consume true stream start now).2.2 = some d ∧ 0 ≤ d) ∧
    ∃ revs aevs, (consume true stream start now).1 = revs ++ aevs ∧
      (∀ e ∈ revs, ∃ t, e = StreamEvent.thinkEmit t) ∧
      (∀ e ∈ aevs, ∃ t, e = StreamEvent.contentEmit t) := by
  obtain ⟨l1, r, l2, c, l3, hst, hr, hcth, _⟩ := hshape
  refine ⟨⟨now - start, ?_, by omega⟩,
    (scanAux start now false stream).1,
    (answerLoop (scanAux start now false stream).2.2).1,
    by simp [consume],
    scanAux_events_think start now stream false,
    answerLoop_events _⟩
  subst hst
  simpa [consume] using
    scanAux_some_of_shape start now l1 r (l2 ++ c :: l3) hr ⟨c, by simp, hcth⟩ false

/-- Claim C4, witness: the concrete stream [reasoning t, content a] with
both clock readings equal to 0. -/
theorem claim4_witness :
    (∃ d, (consume true [⟨"t", ""⟩, ⟨"", "a"⟩] 0 0).2.2 = some d ∧ 0 ≤ d) ∧
    ∃ revs aevs, (consume true [⟨"t", ""⟩, ⟨"", "a"⟩] 0 0).1 = revs ++ aevs ∧
      (∀ e ∈ revs, ∃ t, e = StreamEvent.thinkEmit t) ∧
      (∀ e ∈ aevs, ∃ t, e = StreamEvent.contentEmit t) :=
  claim4_duration_and_ordering [⟨"t", ""⟩, ⟨"", "a"⟩] 0 0 (by omega)
    ⟨[], ⟨"t", ""⟩, [], ⟨"", "a"⟩, [], rfl, by decide, by decide, by decide⟩

/-- Claim C5: for any turn whose selected model is in the enumerated
model list but lacks reasoning support, the Think flag handed to the
backend is false, whatever the user toggle was. -/
theorem claim5_capability_forces_think_off (st : Settings) (history : List Msg)
    (docs : List Doc) (u : String) (chunks : List Chunk) (fails : Bool)
    (start now : Int) (hmem : st.model ∈ models)
    (hcap : supportsReasoning st.model = false) :
    (runTurn st history docs u chunks fails start now).backendThink = false := by
  rw [runTurn_backendThink]
  have hm : st.model = "qwen2.5:0.5b" := by
    simp only [models, List.mem_cons, List.mem_singleton, List.not_mem_nil,
      or_false] at hmem
    rcases hmem with h | h
    · rw [h] at hcap
      simp [supportsReasoning] at hcap
    · exact h
  rw [hm]
  cases st.think <;> simp [resolveThink, models]

/-- Claim C5, witness: the reasoning-incapable model with the toggle on. -/
theorem claim5_witness :
    (runTurn ⟨"qwen2.5:0.5b", true⟩ [] [] "x" [] false 0 0).backendThink = false :=
  claim5_capability_forces_think_off ⟨"qwen2.5:0.5b", true⟩ [] [] "x" [] false 0 0
    (by decide) (by decide)

theorem resume_foldl_eq (steps : List Step) :
    ∀ acc : List Msg,
      steps.foldl
        (fun h s =>
          if s.type = "user_message" then h ++ [⟨"user", s.output⟩]
          else if s.type = "assistant_message" then h ++ [⟨"assistant", s.output⟩]
          else h)
        acc = acc ++ steps.filterMap stepToMsg := by
  induction steps with
  | nil =>
    intro acc
    simp
  | cons s rest ih =>
    intro acc
    simp only [List.foldl_cons, List.filterMap_cons]
    by_cases h1 : s.type = "user_message"
    · simp [stepToMsg, h1, ih]
    · by_cases h2 : s.type = "assistant_message"
      · simp [stepToMsg, h1, h2, ih]
      · simp [stepToMsg, h1, h2, ih]

/-- Claim C6: replaying a persisted transcript on resume rebuilds the
history as the order-preserving image of the steps under the mapping
that sends a user step to a user message, an assistant step to an
assistant message (content equal to the step output in both cases), and
any other step type to nothing. -/
theorem claim6_resume_replay (steps : List Step) :
    on_chat_resume steps = steps.filterMap stepToMsg := by
  have h := resume_foldl_eq steps []
  simpa [on_chat_resume] using h

/-- Claim C7: folding zero documents leaves the history unchanged, a
nonempty attachment list appends exactly one system message built from
the extracted document text, and for the documents a.txt (hello) and
b.pdf (world) the extracted text and the single system message contain
both names and both texts in input order. -/
theorem claim7_document_folding (h : List Msg) (docs : List Doc) :
    foldDocs h [] = h ∧
    (docs ≠ [] → foldDocs h docs =
      h ++ [⟨"system", uploadMessage (read_documents docs)⟩]) ∧
    read_documents [⟨"a.txt", "a.txt", "hello"⟩, ⟨"b.pdf", "b.pdf", "world"⟩] =
      "\n\nFile: a.txt\nhello\n\nFile: b.pdf\nworld" ∧
    ∃ s1 s2 s3 s4 s5,
      uploadMessage
        (read_documents [⟨"a.txt", "a.txt", "hello"⟩, ⟨"b.pdf", "b.pdf", "world"⟩]) =
        s1 ++ "a.txt" ++ s2 ++ "hello" ++ s3 ++ "b.pdf" ++ s4 ++ "world" ++ s5 := by
  refine ⟨rfl, ?_, by decide, ?_⟩
  · intro hne
    have hem : docs.isEmpty = false := by
      cases docs with
      | nil => exact absurd rfl hne
      | cons a l => rfl
    simp [foldDocs, hem]
  · exact ⟨"The user has uploaded the following files \n\nFile: ", "\n",
      "\n\nFile: ", "\n",
      ", assist them in their queries if related to the uploaded files", by decide⟩

/-- Claim C7, witness: folding the two example documents into an empty
history appends exactly the one system message. -/
theorem claim7_witness :
    foldDocs [] [⟨"a.txt", "a.txt", "hello"⟩, ⟨"b.pdf", "b.pdf", "world"⟩] =
      [] ++ [⟨"system", uploadMessage (read_documents
        [⟨"a.txt", "a.txt", "hello"⟩, ⟨"b.pdf", "b.pdf", "world"⟩])⟩] :=
  (claim7_document_folding []
      [⟨"a.txt", "a.txt", "hello"⟩, ⟨"b.pdf", "b.pdf", "world"⟩]).2.1
    (by decide)

/-- Claim C8, counterexample: a turn with the Think toggle on and the
reasoning-incapable model selected rewrites the stored session settings
in place (line 166 assigns into the settings dict), so the settings
after the turn differ from the settings before it. -/
theorem claim8_counterexample :
    (runTurn ⟨"qwen2.5:0.5b", true⟩ [] [] "hi" [] false 0 0).settings ≠
      (⟨"qwen2.5:0.5b", true⟩ : Settings) := by
  decide

/-- Claim C8 as amended: settings resolution writes the effective Think
flag back into the stored session settings; the stored settings survive
the turn unchanged exactly when the toggle was off or the selected model
is not the reasoning-incapable one. -/
theorem claim8_settings_writeback (st : Settings) (history : List Msg)
    (docs : List Doc) (u : String) (chunks : List Chunk) (fails : Bool)
    (start now : Int) :
    (runTurn st history docs u chunks fails start now).settings =
      ⟨st.model, resolveThink st.model st.think⟩ ∧
    ((runTurn st history docs u chunks fails start now).settings = st ↔
      ¬(st.think = true ∧ st.model = "qwen2.5:0.5b")) := by
  refine ⟨rfl, ?_⟩
  rw [runTurn_settings]
  cases st with
  | mk m b =>
    simp only [Settings.mk.injEq, true_and]
    cases b <;> by_cases hm : m = "qwen2.5:0.5b" <;>
      simp [resolveThink, models, hm]

/-- Claim C9, counterexample: a stream that yields one content chunk a
and then raises. The chunk was emitted to the answer channel and
accumulated, but the exception aborts on_message before line 219, so no
assistant message reaches the history, contradicting the claim that the
partial answer is still appended. -/
theorem claim9_counterexample :
    (runTurn ⟨"qwen3:0.6b", false⟩ [] [] "hi" [⟨"", "a"⟩] true 0 0).answer = "a" ∧
    (runTurn ⟨"qwen3:0.6b", false⟩ [] [] "hi" [⟨"", "a"⟩] true 0 0).history =
      [⟨"user", "hi"⟩] ∧
    (⟨"assistant", "a"⟩ : Msg) ∉
      (runTurn ⟨"qwen3:0.6b", false⟩ [] [] "hi" [⟨"", "a"⟩] true 0 0).history := by
  decide

/-- Claim C9 as amended: when the stream merely ends early (without
raising) the accumulated, possibly partial, answer is appended to the
history as the assistant message of the turn; when stream iteration
raises partway, the turn aborts and the history ends at the user
message, with no assistant message appended. -/
theorem claim9_partial_answer (st : Settings) (history : List Msg)
    (docs : List Doc) (u : String) (chunks : List Chunk) (fails : Bool)
    (start now : Int) :
    (fails = false →
      (runTurn st history docs u chunks fails start now).history =
        foldDocs history docs ++ [⟨"user", u⟩,
          ⟨"assistant", (runTurn st history docs u chunks fails start now).answer⟩]) ∧
    (fails = true →
      (runTurn st history docs u chunks fails start now).history =
        foldDocs history docs ++ [⟨"user", u⟩]) := by
  constructor <;> intro hf <;> subst hf
  · rw [runTurn_history, runTurn_answer, turnStream_completed]
    simp
  · rw [runTurn_history, turnStream_completed]
    simp

/-- Claim C9, witness: a cleanly ending stream of one reasoning and one
content chunk, whose (partial) accumulated answer is appended. -/
theorem claim9_witness :
    (runTurn ⟨"qwen3:0.6b", true⟩ [] [] "hi" [⟨"t", ""⟩, ⟨"", "a"⟩] false 0 0).history =
      foldDocs [] [] ++ [⟨"user", "hi"⟩,
        ⟨"assistant", (runTurn ⟨"qwen3:0.6b", true⟩ [] [] "hi"
          [⟨"t", ""⟩, ⟨"", "a"⟩] false 0 0).answer⟩] :=
  (claim9_partial_answer ⟨"qwen3:0.6b", true⟩ [] [] "hi"
    [⟨"t", ""⟩, ⟨"", "a"⟩] false 0 0).1 rfl

theorem read_documents_foldl (docs : List Doc)
    (hext : ∀ d ∈ docs, pathEndsWith d.path "pdf" = false ∧
      pathEndsWith d.path "docx" = false ∧ pathEndsWith d.path "txt" = false) :
    ∀ acc : String,
      docs.foldl
        (fun acc d =>
          if pathEndsWith d.path "pdf" then
            acc ++ "\n\nFile: " ++ d.name ++ "\n" ++ d.text
          else if pathEndsWith d.path "docx" then
            acc ++ "\n\nFile: " ++ d.name ++ "\n" ++ d.text
          else if pathEndsWith d.path "txt" then
            acc ++ "\n\nFile: " ++ d.name ++ "\n" ++ d.text
          else acc)
        acc = acc := by
  induction docs with
  | nil =>
    intro acc
    rfl
  | cons d rest ih =>
    intro acc
    obtain ⟨h1, h2, h3⟩ := hext d (List.mem_cons_self d rest)
    simp only [List.foldl_cons, h1, h2, h3, Bool.false_eq_true, if_false]
    exact ih (fun x hx => hext x (List.mem_cons_of_mem d hx)) acc

/-- Claim C10: for a nonempty attachment list in which no path ends in
pdf, docx or txt, read_documents returns the empty string, yet one
system message is still appended whose content is the fixed template
with an empty extracted-text segment, independent of the skipped files. -/
theorem claim10_unrecognized_extensions (h : List Msg) (docs : List Doc)
    (hne : docs ≠ [])
    (hext : ∀ d ∈ docs, pathEndsWith d.path "pdf" = false ∧
      pathEndsWith d.path "docx" = false ∧ pathEndsWith d.path "txt" = false) :
    read_documents docs = "" ∧
    foldDocs h docs = h ++ [⟨"system",
      "The user has uploaded the following files , assist them in their queries if related to the uploaded files"⟩] := by
  have hr : read_documents docs = "" := read_documents_foldl docs hext ""
  refine ⟨hr, ?_⟩
  have hem : docs.isEmpty = false := by
    cases docs with
    | nil => exact absurd rfl hne
    | cons a l => rfl
  have hu : uploadMessage "" =
      "The user has uploaded the following files , assist them in their queries if related to the uploaded files" := by
    decide
  simp [foldDocs, hem, hr, hu]

/-- Claim C10, witness: one attachment with an exe path. -/
theorem claim10_witness :
    read_documents [⟨"v.exe", "v.exe", "xx"⟩] = "" ∧
    foldDocs [] [⟨"v.exe", "v.exe", "xx"⟩] = [] ++ [⟨"system",
      "The user has uploaded the following files , assist them in their queries if related to the uploaded files"⟩] :=
  claim10_unrecognized_extensions [] [⟨"v.exe", "v.exe", "xx"⟩] (by decide)
    (by decide)

end App
